import Mathlib

deriving instance DecidableEq for Except

/-!
Verification of the text-record extraction and multi-source price
aggregation engine of the AgriVerse repository
(`src/marketPrice.py`, `src/marketPrice_ProductionCost.py`).

Strings are modelled as `List Char` (Python `str`), prices as `ℚ`
(Python `float`, with exact arithmetic standing in for IEEE doubles).
Each definition is a direct transcription of the Python function it
names in its doc comment.
-/

namespace AgriVerse

/-! ### Python string primitives -/

/-- Python `str.lower` on one character (ASCII range, as used by the inputs). -/
def lowerChar (c : Char) : Char :=
  if 65 ≤ c.toNat ∧ c.toNat ≤ 90 then Char.ofNat (c.toNat + 32) else c

/-- Python `str.lower`. -/
def lowerL (l : List Char) : List Char := l.map lowerChar

/-- Python whitespace characters stripped by `str.strip()`. -/
def isWSChar (c : Char) : Bool :=
  c = ' ' || c = '\t' || c = '\n' || c = '\r' || c = Char.ofNat 11 || c = Char.ofNat 12

/-- Python `str.strip()`. -/
def stripL (l : List Char) : List Char :=
  ((l.dropWhile isWSChar).reverse.dropWhile isWSChar).reverse

/-- Python `str.split(sep)` for a one-character separator: keeps empty pieces. -/
def splitOnChar (sep : Char) : List Char → List (List Char)
  | [] => [[]]
  | c :: cs =>
    if c = sep then [] :: splitOnChar sep cs
    else
      match splitOnChar sep cs with
      | [] => [[c]]
      | t :: ts => (c :: t) :: ts

/-- Python `s.split(sep, 1)` when `sep` occurs: the pieces before and after
the first occurrence; `none` when `sep ∉ s` (Python's `sep in s` test). -/
def splitFirst (sep : Char) : List Char → Option (List Char × List Char)
  | [] => none
  | c :: cs =>
    if c = sep then some ([], cs)
    else (splitFirst sep cs).map (fun p => (c :: p.1, p.2))

/-- Python `str.startswith`. -/
def startsWithL : List Char → List Char → Bool
  | [], _ => true
  | _ :: _, [] => false
  | p :: ps, c :: cs => p = c && startsWithL ps cs

/-- Python `needle in haystack` substring test. -/
def hasSub (p : List Char) : List Char → Bool
  | [] => p.isEmpty
  | c :: cs => startsWithL p (c :: cs) || hasSub p cs

/-- The availability test `"not available" in response_text.lower()`
(`src/marketPrice.py` lines 141 and 192). -/
def containsNotAvailable (s : List Char) : Bool :=
  hasSub "not available".data (lowerL s)

/-! ### Entry dictionaries

Python builds `entry_data` as a `dict`; later assignments to the same key
overwrite earlier ones.  We model the dict as an association list with the
newest binding in front, so the first hit of `lookupE` is Python's value. -/

/-- The `entry_data` dictionary of `_parse_price_response`. -/
abbrev Entry := List (List Char × List Char)

/-- Python `key in entry_data` / `entry_data[key]` (newest binding wins). -/
def lookupE (k : List Char) (e : Entry) : Option (List Char) :=
  (e.find? (fun p => p.1 = k)).map (fun p => p.2)

/-- Python `entry_data.get(key, default)`. -/
def lookupD (k default_ : List Char) (e : Entry) : List Char :=
  (lookupE k e).getD default_

/-- The inner loop of `_parse_price_response` building `entry_data`
(`src/marketPrice.py` lines 154-158): each `|`-piece containing a `:` is
split at the first `:` into a stripped key/value pair. -/
def buildEntryData (parts : List (List Char)) : Entry :=
  parts.foldl
    (fun d part =>
      match splitFirst ':' part with
      | some kv => (stripL kv.1, stripL kv.2) :: d
      | none => d)
    []

/-- The dictionary parsed from one entry line
(`parts = [p.strip() for p in entry.split('|')]` then key/value splitting). -/
def entryDict (entry : List Char) : Entry :=
  buildEntryData ((splitOnChar '|' entry).map stripL)

/-! ### The record parser `_parse_price_response` -/

/-- The `data` dictionary of `_parse_price_response`
(`src/marketPrice.py` lines 134-139). -/
structure ParsedData where
  prices : List Entry
  ranges : List Entry
  latest_date : Option (List Char)
  sources : List (List Char)
deriving DecidableEq

/-- The initial (and "not available") value of `data`. -/
def emptyParsed : ParsedData := ⟨[], [], none, []⟩

def PRICE_PER_KG_key : List Char := "PRICE_PER_KG".data
def MIN_PRICE_KG_key : List Char := "MIN_PRICE_KG".data
def MAX_PRICE_KG_key : List Char := "MAX_PRICE_KG".data
def SOURCE_key : List Char := "SOURCE".data
def DATE_key : List Char := "DATE".data

/-- Python `set.add` on the insertion-ordered `sources` set. -/
def addSource (s : List (List Char)) (x : List Char) : List (List Char) :=
  if x ∈ s then s else s ++ [x]

/-- One iteration of the entry loop of `_parse_price_response`
(`src/marketPrice.py` lines 148-165): a `LATEST_DATE:` line sets the
block-level date; otherwise the line is split into a dictionary and
classified as a price (key `PRICE_PER_KG` present), as a range (both
`MIN_PRICE_KG` and `MAX_PRICE_KG` present), or skipped. -/
def processEntry (d : ParsedData) (entry : List Char) : ParsedData :=
  if startsWithL "LATEST_DATE:".data entry then
    match splitFirst ':' entry with
    | some kv => { d with latest_date := some (stripL kv.2) }
    | none => d
  else
    let ed := entryDict entry
    if (lookupE PRICE_PER_KG_key ed).isSome then
      { d with prices := d.prices ++ [ed],
               sources := addSource d.sources (lookupD SOURCE_key "Unknown".data ed) }
    else if (lookupE MIN_PRICE_KG_key ed).isSome && (lookupE MAX_PRICE_KG_key ed).isSome then
      { d with ranges := d.ranges ++ [ed],
               sources := addSource d.sources (lookupD SOURCE_key "Unknown".data ed) }
    else d

/-- `_parse_price_response` (`src/marketPrice.py` lines 132-171, identical in
`src/marketPrice_ProductionCost.py` lines 63-101): the "not available"
short-circuit, then the split into stripped non-empty lines, then the entry
loop. -/
def parsePriceResponse (t : List Char) : ParsedData :=
  if containsNotAvailable t then emptyParsed
  else
    (((splitOnChar '\n' t).map stripL).filter (fun e => !e.isEmpty)).foldl
      processEntry emptyParsed

/-! ### Numeric extraction

`float(re.sub(r"[^\d.]", "", token))` (`src/marketPrice.py` lines 213, 236-237):
the regex keeps digits and decimal points in order; `float` on such a cleaned
string succeeds exactly when it holds at least one digit and at most one
decimal point, and then denotes the decimal value it spells. -/

/-- `re.sub(r"[^\d.]", "", s)`: keep only digits and `.`, left to right. -/
def cleanNumeric (l : List Char) : List Char :=
  l.filter (fun c => c.isDigit || c = '.')

/-- Value of a digit string (used for the integer and fractional parts). -/
def digitsVal (l : List Char) : Nat :=
  l.foldl (fun n c => 10 * n + (c.toNat - 48)) 0

/-- Python `float` on a string of digits and dots: `some` value when the
string has at least one digit and at most one dot, `none` (`ValueError`)
otherwise. -/
def parseCleaned (l : List Char) : Option ℚ :=
  if l.any Char.isDigit && decide ((l.filter (fun c => c = '.')).length ≤ 1) then
    match splitFirst '.' l with
    | none => some (digitsVal l)
    | some ab => some ((digitsVal ab.1 : ℚ) + (digitsVal ab.2 : ℚ) / (10 ^ ab.2.length : ℚ))
  else none

/-- `float(re.sub(r"[^\d.]", "", token))`, with `none` for a `ValueError`. -/
def extractNumeric (l : List Char) : Option ℚ :=
  parseCleaned (cleanNumeric l)

/-! ### Quality adjustment -/

/-- `QUALITY_PRICE_FACTORS.get(grade, 1.0)` with
`QUALITY_PRICE_FACTORS = {'A': 1.15, 'B': 1.0, 'C': 0.85}`
(`src/marketPrice.py` line 71). -/
def QUALITY_PRICE_FACTORS_get (g : List Char) : ℚ :=
  if g = "A".data then 23/20
  else if g = "B".data then 1
  else if g = "C".data then 17/20
  else 1

/-- `if quality_grade: price *= QUALITY_PRICE_FACTORS.get(quality_grade, 1.0)`
(`src/marketPrice.py` lines 214-215, 238-240).  `quality_grade` is
`quality_data.get('Grade')`: `none` when absent, and the empty string is
falsy in Python, so both leave the price unchanged. -/
def applyGrade (grade : Option (List Char)) (x : ℚ) : ℚ :=
  match grade with
  | none => x
  | some g => if g.isEmpty then x else x * QUALITY_PRICE_FACTORS_get g

/-- The effective multiplier of `applyGrade` (the factor the aggregate is
scaled by). -/
def effFactor (grade : Option (List Char)) : ℚ :=
  applyGrade grade 1

/-! ### Aggregation (`fetch_price`, `src/marketPrice.py` lines 200-272) -/

/-- The `prices` list built at lines 210-218: for each parsed price entry,
extract `PRICE_PER_KG` numerically, apply the grade factor, and keep the
pair `(price_kg, price_data)`; a `ValueError`/`KeyError` skips the entry. -/
def buildPrices (grade : Option (List Char)) (es : List Entry) : List (ℚ × Entry) :=
  es.filterMap (fun e =>
    ((lookupE PRICE_PER_KG_key e).bind extractNumeric).map
      (fun q => (applyGrade grade q, e)))

/-- The `ranges` list built at lines 233-243: extract `MIN_PRICE_KG` and
`MAX_PRICE_KG`, apply the grade factor to each, keep
`(min_p, max_p, range_data)`; a failed extraction skips the entry. -/
def buildRanges (grade : Option (List Char)) (es : List Entry) :
    List (ℚ × ℚ × Entry) :=
  es.filterMap (fun e =>
    ((lookupE MIN_PRICE_KG_key e).bind extractNumeric).bind (fun a =>
      ((lookupE MAX_PRICE_KG_key e).bind extractNumeric).map (fun b =>
        (applyGrade grade a, applyGrade grade b, e))))

/-- `sum(l) / len(l)` (lines 221, 246-247). -/
def mean (l : List ℚ) : ℚ := l.sum / l.length

/-- The central value of the estimate: the average single price, or the
averaged (min, max) pair. -/
inductive Central where
  | single (v : ℚ)
  | range (lo hi : ℚ)
deriving DecidableEq

/-- One `Source i: ...` line (lines 226-229, 252-255): the value shown,
`data.get("SOURCE", "Unknown")` and `data.get("DATE", "N/A")`. -/
structure SourceReport where
  value : Central
  source : List Char
  date : List Char
deriving DecidableEq

/-- The numeric content of the strings `fetch_price` returns on success. -/
structure AggregateEstimate where
  central : Option Central
  contributing : List SourceReport
  latest : Option (List Char)
deriving DecidableEq

/-! ### Latest-date resolution (lines 257-270)

`max(dates, key=lambda d: datetime.strptime(d, "%Y-%m-%d") if "-" in d else d)`:
the key of a date string containing `-` is a `datetime` (raising `ValueError`
if `strptime` fails), otherwise the string itself; Python's `max` compares the
keys pairwise, raising `TypeError` on a `datetime`/`str` comparison.  Any
exception escapes to the `except` at line 274. -/

/-- Days in a month (Gregorian, as validated by `datetime.strptime`). -/
def monthLen (y m : Nat) : Nat :=
  if m = 2 then (if (y % 4 = 0 && !(y % 100 = 0)) || y % 400 = 0 then 29 else 28)
  else if m = 4 || m = 6 || m = 9 || m = 11 then 30 else 31

/-- The day field of `strptime "%Y-%m-%d"`: CPython's `%d` pattern is
`3[01]|[12]\d|0[1-9]|[1-9]| [1-9]` — one or two digits, or a space followed
by a non-zero digit. -/
def parseDay (ds : List Char) : Option Nat :=
  if !ds.isEmpty && ds.all Char.isDigit && decide (ds.length ≤ 2) then
    some (digitsVal ds)
  else
    match ds with
    | [' ', c] => if c.isDigit && !(c = '0') then some (c.toNat - 48) else none
    | _ => none

/-- `datetime.strptime(d, "%Y-%m-%d")`: CPython's `%Y` is exactly four
digits (`\d\d\d\d`), `%m` is one or two digits in 1..12, `%d` is `parseDay`,
dash-separated with the whole string consumed; then the `datetime`
constructor validates the year (≥ 1) and the day against the month length. -/
def parseYMD (l : List Char) : Option (Nat × Nat × Nat) :=
  match splitOnChar '-' l with
  | [ys, ms, ds] =>
    if (ys.all Char.isDigit && decide (ys.length = 4)) &&
       (!ms.isEmpty && ms.all Char.isDigit && decide (ms.length ≤ 2)) then
      match parseDay ds with
      | some d =>
        let y := digitsVal ys
        let m := digitsVal ms
        if 1 ≤ y && 1 ≤ m && m ≤ 12 && 1 ≤ d && d ≤ monthLen y m then
          some (y, m, d)
        else none
      | none => none
    else none
  | _ => none

/-- A comparison key produced by the `max` lambda: a `datetime` or a `str`. -/
inductive DKey where
  | dt (y m d : Nat)
  | str (s : List Char)
deriving DecidableEq

/-- The `max` lambda: `datetime.strptime(d, "%Y-%m-%d") if "-" in d else d`;
`error` is the `ValueError` raised by a failed `strptime`. -/
def dateKey (s : List Char) : Except Unit DKey :=
  if hasSub ['-'] s then
    match parseYMD s with
    | some ymd => .ok (.dt ymd.1 ymd.2.1 ymd.2.2)
    | none => .error ()
  else .ok (.str s)

/-- The key a date string receives when it parses as `%Y-%m-%d` (used to
state the uniform-calendar case of latest-date resolution). -/
def ymdKey (d : List Char) : DKey :=
  match parseYMD d with
  | some t => .dt t.1 t.2.1 t.2.2
  | none => .str d

/-- Python string comparison: lexicographic by code point. -/
def lexLt : List Char → List Char → Bool
  | [], [] => false
  | [], _ :: _ => true
  | _ :: _, [] => false
  | a :: as, b :: bs => a.toNat < b.toNat || (a.toNat = b.toNat && lexLt as bs)

/-- Lexicographic order on (year, month, day) triples, as `datetime` compares. -/
def tripleLt (a b : Nat × Nat × Nat) : Bool :=
  decide (a.1 < b.1 ∨ (a.1 = b.1 ∧ (a.2.1 < b.2.1 ∨ (a.2.1 = b.2.1 ∧ a.2.2 < b.2.2))))

/-- Python `k1 > k2` on two keys: defined for two `datetime`s or two `str`s,
a `TypeError` (`error`) when the kinds differ. -/
def dkeyGt : DKey → DKey → Except Unit Bool
  | .dt a b c, .dt x y z => .ok (tripleLt (x, y, z) (a, b, c))
  | .str a, .str b => .ok (lexLt b a)
  | _, _ => .error ()

/-- The strict order underlying `dkeyGt` when the two keys have the same
kind (`k1 < k2` in Python). -/
def dkLt : DKey → DKey → Bool
  | .dt a b c, .dt x y z => tripleLt (a, b, c) (x, y, z)
  | .str a, .str b => lexLt a b
  | _, _ => false

/-- Whether a key is a `datetime` (as opposed to a `str`). -/
def kindDt : DKey → Bool
  | .dt _ _ _ => true
  | .str _ => false

/-- The scan of Python `max` over the remaining dates, carrying the current
maximal element and its key: replace the maximum when the next key compares
strictly greater; a `ValueError` or `TypeError` aborts the whole `max`. -/
def pyMaxAux : List (List Char) → List Char × DKey → Except Unit (List Char)
  | [], best => .ok best.1
  | d :: rest, best =>
    match dateKey d with
    | .error e => .error e
    | .ok kd =>
      match dkeyGt kd best.2 with
      | .error e => .error e
      | .ok g => pyMaxAux rest (if g then (d, kd) else best)

/-- `max(dates, key=...)` (line 269); `error` is any escaping exception. -/
def pyMaxDates : List (List Char) → Except Unit (List Char)
  | [] => .error ()
  | d :: rest =>
    match dateKey d with
    | .error e => .error e
    | .ok kd => pyMaxAux rest (d, kd)

/-- The `dates` list collected at lines 261-267: the `DATE` value of every
price entry, then of every range entry, in order. -/
def collectDates (pd : ParsedData) : List (List Char) :=
  pd.prices.filterMap (lookupE DATE_key) ++ pd.ranges.filterMap (lookupE DATE_key)

/-- The fallthrough of lines 260-270: when the block annotation is falsy,
run Python `max` over the collected record dates (when any), letting
exceptions propagate. -/
def latestFallback (pd : ParsedData) : Except Unit (Option (List Char)) :=
  let dates := collectDates pd
  if dates.isEmpty then .ok none
  else (pyMaxDates dates).map some

/-- Lines 257-270: `if parsed_data["latest_date"]:` — the annotation is used
only when truthy (present and non-empty); an absent annotation, and the
reachable empty one left by a bare `LATEST_DATE:` line (both falsy in
Python), fall through to the `max` over the record dates. -/
def resolveLatest (pd : ParsedData) : Except Unit (Option (List Char)) :=
  match pd.latest_date with
  | some d => if d.isEmpty then latestFallback pd else .ok (some d)
  | none => latestFallback pd

/-- Outcome of `fetch_price` after parsing: the unavailable message
(line 203), the error message from the outer `except` (line 274), or a
successful estimate. -/
inductive FetchResult where
  | unavailable
  | err
  | ok (est : AggregateEstimate)
deriving DecidableEq

/-- `fetch_price` from the parsed response onward
(`src/marketPrice.py` lines 202-272): the unavailable early return, the
single-price branch (lines 209-229), the range branch taken only when no
price entry exists (lines 232-255), and the latest-date resolution. -/
def processParsed (grade : Option (List Char)) (pd : ParsedData) : FetchResult :=
  if pd.prices.isEmpty && pd.ranges.isEmpty then .unavailable
  else
    let ps := buildPrices grade pd.prices
    let rs := buildRanges grade pd.ranges
    let central : Option Central :=
      if !pd.prices.isEmpty then
        if !ps.isEmpty then some (.single (mean (ps.map Prod.fst))) else none
      else
        if !rs.isEmpty then
          some (.range (mean (rs.map Prod.fst)) (mean (rs.map (fun r => r.2.1))))
        else none
    let contributing : List SourceReport :=
      if !pd.prices.isEmpty then
        (ps.take 3).map (fun pe =>
          ⟨.single pe.1, lookupD SOURCE_key "Unknown".data pe.2,
            lookupD DATE_key "N/A".data pe.2⟩)
      else
        (rs.take 3).map (fun r =>
          ⟨.range r.1 r.2.1, lookupD SOURCE_key "Unknown".data r.2.2,
            lookupD DATE_key "N/A".data r.2.2⟩)
    match resolveLatest pd with
    | .error _ => .err
    | .ok l => .ok ⟨central, contributing, l⟩

/-- The central value of a fetch outcome. -/
def centralOf : FetchResult → Option Central
  | .ok est => est.central
  | _ => none

/-- The fallback controller (`src/marketPrice.py` lines 183-198): the second
query is issued exactly when the initial response contains "not available",
and its answer replaces the initial one exactly when it does not itself
contain "not available".  Returns (number of queries, text parsed). -/
def fetchControl (resp1 resp2 : List Char) : Nat × List Char :=
  if containsNotAvailable resp1 then
    if !containsNotAvailable resp2 then (2, resp2) else (2, resp1)
  else (1, resp1)

/-- `fetch_price` as a function of the two possible response texts. -/
def fetchOutcome (grade : Option (List Char)) (resp1 resp2 : List Char) :
    FetchResult :=
  processParsed grade (parsePriceResponse (fetchControl resp1 resp2).2)

/-! ### The production-cost variant
(`src/marketPrice_ProductionCost.py` lines 129-165) -/

/-- `fetch_price` of `src/marketPrice_ProductionCost.py` from the parsed
response onward: default 2000 when nothing parsed; otherwise average the
extracted per-kg prices (or the midpoints `(min + max) / 2` of the ranges
when no price entry exists) and multiply the average by 100 ("Convert back
to quintal price", lines 147 and 162); 2000 when every extraction failed. -/
def pcFetchFromParsed (pd : ParsedData) : ℚ :=
  if pd.prices.isEmpty && pd.ranges.isEmpty then 2000
  else if !pd.prices.isEmpty then
    let ps := pd.prices.filterMap (fun e => (lookupE PRICE_PER_KG_key e).bind extractNumeric)
    if !ps.isEmpty then mean ps * 100 else 2000
  else
    let rs := pd.ranges.filterMap (fun e =>
      ((lookupE MIN_PRICE_KG_key e).bind extractNumeric).bind (fun a =>
        ((lookupE MAX_PRICE_KG_key e).bind extractNumeric).map (fun b =>
          (a + b) / 2)))
    if !rs.isEmpty then mean rs * 100 else 2000

/-! ## Shared lemmas -/

theorem sum_map_const_mul (c : ℚ) (l : List ℚ) :
    (l.map (fun x => c * x)).sum = c * l.sum := by
  induction l with
  | nil => simp
  | cons x xs ih => simp [ih]; ring

theorem mean_map_const_mul (c : ℚ) (l : List ℚ) :
    mean (l.map (fun x => c * x)) = c * mean l := by
  simp [mean, sum_map_const_mul, mul_div_assoc]

/-- Grade adjustment is multiplication by the effective factor. -/
theorem applyGrade_eq_factor (grade : Option (List Char)) (x : ℚ) :
    applyGrade grade x = effFactor grade * x := by
  cases grade with
  | none => simp [applyGrade, effFactor]
  | some g =>
    by_cases hg : g.isEmpty <;> simp [applyGrade, effFactor, hg] <;> ring

theorem effFactor_none : effFactor none = (1 : ℚ) := rfl

/-- The graded price list is the raw (unadjusted) price list with every
value scaled by the effective factor. -/
theorem buildPrices_via_raw (grade : Option (List Char)) (es : List Entry) :
    buildPrices grade es =
      (buildPrices none es).map (fun pe => (effFactor grade * pe.1, pe.2)) := by
  induction es with
  | nil => simp [buildPrices]
  | cons e es ih =>
    simp only [buildPrices, List.filterMap_cons] at ih ⊢
    cases h : (lookupE PRICE_PER_KG_key e).bind extractNumeric with
    | none => simpa [h] using ih
    | some q =>
      simp only [h, Option.map_some']
      rw [List.map_cons, ih]
      simp [applyGrade_eq_factor, effFactor_none]

/-- The graded range list is the raw range list with both bounds scaled by
the effective factor. -/
theorem buildRanges_via_raw (grade : Option (List Char)) (es : List Entry) :
    buildRanges grade es =
      (buildRanges none es).map
        (fun r => (effFactor grade * r.1, effFactor grade * r.2.1, r.2.2)) := by
  induction es with
  | nil => simp [buildRanges]
  | cons e es ih =>
    simp only [buildRanges, List.filterMap_cons] at ih ⊢
    cases h1 : (lookupE MIN_PRICE_KG_key e).bind extractNumeric with
    | none => simpa [h1] using ih
    | some a =>
      cases h2 : (lookupE MAX_PRICE_KG_key e).bind extractNumeric with
      | none => simpa [h1, h2] using ih
      | some b =>
        simp only [h1, h2, Option.some_bind', Option.map_some']
        rw [List.map_cons, ih]
        simp [applyGrade_eq_factor, effFactor_none]

/-- Full characterization of `processParsed` on the single-price branch:
when at least one price entry was parsed and the latest-date resolution does
not raise, the estimate's central value is the mean of the grade-adjusted
prices and every contributing source reports its grade-adjusted value. -/
theorem processParsed_prices_spec (grade : Option (List Char)) (pd : ParsedData)
    (l : Option (List Char)) (hp : pd.prices ≠ []) (hl : resolveLatest pd = .ok l) :
    processParsed grade pd = .ok
      ⟨if (buildPrices none pd.prices).isEmpty then none
        else some (.single
          (mean ((buildPrices none pd.prices).map fun pe => effFactor grade * pe.1))),
       ((buildPrices none pd.prices).take 3).map (fun pe =>
         ⟨.single (effFactor grade * pe.1), lookupD SOURCE_key "Unknown".data pe.2,
           lookupD DATE_key "N/A".data pe.2⟩),
       l⟩ := by
  have hpe : pd.prices.isEmpty = false := by
    cases hx : pd.prices with
    | nil => exact absurd hx hp
    | cons a as => simp [hx]
  rw [processParsed, hl]
  rw [buildPrices_via_raw grade pd.prices]
  cases hbe : (buildPrices none pd.prices).isEmpty with
  | true =>
    have hb0 : buildPrices none pd.prices = [] := by simpa using hbe
    simp [hpe, hbe, hb0, List.map_take, List.map_map, Function.comp_def]
  | false =>
    have hbne : buildPrices none pd.prices ≠ [] := by simpa using hbe
    simp [hpe, hbe, hbne, List.map_take, List.map_map, Function.comp_def]

/-- Full characterization of `processParsed` on the range branch: when no
price entry was parsed, at least one range entry was, and the latest-date
resolution does not raise, the central pair is the pair of means of the
grade-adjusted bounds and every contributing source reports its
grade-adjusted bounds. -/
theorem processParsed_ranges_spec (grade : Option (List Char)) (pd : ParsedData)
    (l : Option (List Char)) (hp : pd.prices = []) (hr : pd.ranges ≠ [])
    (hl : resolveLatest pd = .ok l) :
    processParsed grade pd = .ok
      ⟨if (buildRanges none pd.ranges).isEmpty then none
        else some (.range
          (mean ((buildRanges none pd.ranges).map fun r => effFactor grade * r.1))
          (mean ((buildRanges none pd.ranges).map fun r => effFactor grade * r.2.1))),
       ((buildRanges none pd.ranges).take 3).map (fun r =>
         ⟨.range (effFactor grade * r.1) (effFactor grade * r.2.1),
           lookupD SOURCE_key "Unknown".data r.2.2,
           lookupD DATE_key "N/A".data r.2.2⟩),
       l⟩ := by
  have hre : pd.ranges.isEmpty = false := by
    cases hx : pd.ranges with
    | nil => exact absurd hx hr
    | cons a as => simp [hx]
  rw [processParsed, hl]
  rw [buildRanges_via_raw grade pd.ranges]
  have hpp : buildPrices grade pd.prices = [] := by simp [hp, buildPrices]
  cases hbe : (buildRanges none pd.ranges).isEmpty with
  | true =>
    have hb0 : buildRanges none pd.ranges = [] := by simpa using hbe
    simp [hp, hre, hbe, hb0, hpp, List.map_take, List.map_map, Function.comp_def]
  | false =>
    have hbne : buildRanges none pd.ranges ≠ [] := by simpa using hbe
    simp [hp, hre, hbe, hbne, hpp, List.map_take, List.map_map, Function.comp_def]

/-! ### Order lemmas for the `max` scan -/

theorem lexLt_irrefl (l : List Char) : lexLt l l = false := by
  induction l with
  | nil => rfl
  | cons a as ih => simp [lexLt, ih]

theorem lexLt_trans : ∀ {a b c : List Char},
    lexLt a b = true → lexLt b c = true → lexLt a c = true := by
  intro a
  induction a with
  | nil =>
    intro b c hab hbc
    cases b with
    | nil => simp [lexLt] at hab
    | cons b0 bs =>
      cases c with
      | nil => simp [lexLt] at hbc
      | cons c0 cs => simp [lexLt]
  | cons a0 as ih =>
    intro b c hab hbc
    cases b with
    | nil => simp [lexLt] at hab
    | cons b0 bs =>
      cases c with
      | nil => simp [lexLt] at hbc
      | cons c0 cs =>
        simp only [lexLt, Bool.or_eq_true, Bool.and_eq_true, decide_eq_true_eq]
          at hab hbc ⊢
        rcases hab with h1 | ⟨h1, h2⟩ <;> rcases hbc with g1 | ⟨g1, g2⟩
        · exact Or.inl (by omega)
        · exact Or.inl (by omega)
        · exact Or.inl (by omega)
        · exact Or.inr ⟨by omega, ih h2 g2⟩

theorem lexLt_total : ∀ {a b : List Char},
    lexLt a b = false → lexLt b a = false → a = b := by
  intro a
  induction a with
  | nil =>
    intro b hab _
    cases b with
    | nil => rfl
    | cons b0 bs => simp [lexLt] at hab
  | cons a0 as ih =>
    intro b hab hba
    cases b with
    | nil => simp [lexLt] at hba
    | cons b0 bs =>
      simp only [lexLt, Bool.or_eq_false_iff, Bool.and_eq_false_iff,
        decide_eq_false_iff_not] at hab hba
      have h0 : a0.toNat = b0.toNat := by
        rcases hab with ⟨h1, _⟩
        rcases hba with ⟨h2, _⟩
        omega
      have h0' : a0 = b0 := Char.eq_of_val_eq (UInt32.ext h0)
      rcases hab with ⟨-, hab2⟩
      rcases hba with ⟨-, hba2⟩
      rcases hab2 with h | h
      · exact absurd h0 h
      · rcases hba2 with h' | h'
        · exact absurd h0.symm h'
        · rw [h0', ih h h']

theorem tripleLt_irrefl (a : Nat × Nat × Nat) : tripleLt a a = false := by
  simp [tripleLt]

theorem tripleLt_trans {a b c : Nat × Nat × Nat}
    (h1 : tripleLt a b = true) (h2 : tripleLt b c = true) : tripleLt a c = true := by
  simp only [tripleLt, decide_eq_true_eq] at h1 h2 ⊢
  omega

theorem tripleLt_total {a b : Nat × Nat × Nat}
    (h1 : tripleLt a b = false) (h2 : tripleLt b a = false) : a = b := by
  obtain ⟨a1, a2, a3⟩ := a
  obtain ⟨b1, b2, b3⟩ := b
  simp only [tripleLt, decide_eq_false_iff_not] at h1 h2
  have h : a1 = b1 ∧ a2 = b2 ∧ a3 = b3 := by omega
  simp [h.1, h.2.1, h.2.2]

theorem dkLt_irrefl (k : DKey) : dkLt k k = false := by
  cases k with
  | dt a b c => simpa [dkLt] using tripleLt_irrefl (a, b, c)
  | str s => simpa [dkLt] using lexLt_irrefl s

theorem dkLt_trans : ∀ {k1 k2 k3 : DKey},
    dkLt k1 k2 = true → dkLt k2 k3 = true → dkLt k1 k3 = true := by
  intro k1 k2 k3 h1 h2
  cases k1 <;> cases k2 <;> cases k3 <;> simp only [dkLt] at h1 h2 ⊢ <;>
    first
      | exact tripleLt_trans h1 h2
      | exact lexLt_trans h1 h2
      | exact Bool.noConfusion h1
      | exact Bool.noConfusion h2

theorem dkLt_total : ∀ {k1 k2 : DKey},
    dkLt k1 k2 = false → dkLt k2 k1 = false → kindDt k1 = kindDt k2 → k1 = k2 := by
  intro k1 k2 h1 h2 hk
  cases k1 with
  | dt a b c =>
    cases k2 with
    | dt x y z =>
      have h := tripleLt_total (a := (a, b, c)) (b := (x, y, z))
        (by simpa [dkLt] using h1) (by simpa [dkLt] using h2)
      simp only [Prod.mk.injEq] at h
      simp [h.1, h.2.1, h.2.2]
    | str s => simp [kindDt] at hk
  | str s =>
    cases k2 with
    | dt x y z => simp [kindDt] at hk
    | str t =>
      have h := lexLt_total (a := s) (b := t)
        (by simpa [dkLt] using h1) (by simpa [dkLt] using h2)
      rw [h]

theorem dkeyGt_eq_of_kind {k1 k2 : DKey} (h : kindDt k1 = kindDt k2) :
    dkeyGt k1 k2 = .ok (dkLt k2 k1) := by
  cases k1 with
  | dt a b c =>
    cases k2 with
    | dt x y z => rfl
    | str s => simp [kindDt] at h
  | str s =>
    cases k2 with
    | dt x y z => simp [kindDt] at h
    | str t => rfl

/-- When the separator does not occur, Python `split` returns the whole
string as its single piece. -/
theorem splitOnChar_of_no_sep {sep : Char} : ∀ {l : List Char},
    hasSub [sep] l = false → splitOnChar sep l = [l] := by
  intro l
  induction l with
  | nil => intro _; rfl
  | cons c cs ih =>
    intro h
    simp only [hasSub, startsWithL, Bool.or_eq_false_iff, Bool.and_eq_false_iff,
      decide_eq_false_iff_not] at h
    have hne : ¬ c = sep := by
      intro hc
      rcases h.1 with h' | h'
      · exact h' hc.symm
      · simp [startsWithL] at h'
    have h2 : hasSub [sep] cs = false := h.2
    rw [splitOnChar, if_neg hne, ih h2]

/-- A string accepted by `strptime "%Y-%m-%d"` contains a dash. -/
theorem parseYMD_isSome_dash {d : List Char} (h : (parseYMD d).isSome = true) :
    hasSub ['-'] d = true := by
  by_contra hx
  have hx' : hasSub ['-'] d = false := by
    revert hx
    cases hasSub ['-'] d <;> simp
  rw [parseYMD, splitOnChar_of_no_sep hx'] at h
  simp at h

/-- The `max` scan, specified: over elements whose keys all succeed and have
one kind, it returns an element no other element's key strictly exceeds. -/
theorem pyMaxAux_reaches_max (K : List Char → DKey) (P : List Char → Prop)
    (hK : ∀ d, P d → dateKey d = .ok (K d))
    (hkind : ∀ d d', P d → P d' → kindDt (K d) = kindDt (K d')) :
    ∀ (rest : List (List Char)) (best : List Char),
      P best → (∀ d ∈ rest, P d) →
      ∃ m, pyMaxAux rest (best, K best) = .ok m ∧
        (m = best ∨ m ∈ rest) ∧
        dkLt (K m) (K best) = false ∧
        ∀ d ∈ rest, dkLt (K m) (K d) = false := by
  intro rest
  induction rest with
  | nil =>
    intro best hb _
    exact ⟨best, rfl, Or.inl rfl, dkLt_irrefl _, by simp⟩
  | cons d rest ih =>
    intro best hb hrest
    have hd : P d := hrest d (by simp)
    have hrest' : ∀ x ∈ rest, P x := fun x hx => hrest x (by simp [hx])
    have hkd : dateKey d = .ok (K d) := hK d hd
    have hgt : dkeyGt (K d) (K best) = .ok (dkLt (K best) (K d)) :=
      dkeyGt_eq_of_kind (hkind d best hd hb)
    cases hcmp : dkLt (K best) (K d) with
    | true =>
      obtain ⟨m, hm, hmem, hmb, hall⟩ := ih d hd hrest'
      refine ⟨m, ?_, ?_, ?_, ?_⟩
      · simp only [pyMaxAux, hkd, hgt, hcmp]
        simpa using hm
      · rcases hmem with rfl | h
        · exact Or.inr (by simp)
        · exact Or.inr (by simp [h])
      · cases hx : dkLt (K m) (K best) with
        | false => rfl
        | true => exact absurd (dkLt_trans hx hcmp) (by simp [hmb])
      · intro x hx
        rcases List.mem_cons.mp hx with rfl | hx'
        · exact hmb
        · exact hall x hx'
    | false =>
      obtain ⟨m, hm, hmem, hmb, hall⟩ := ih best hb hrest'
      have hPm : P m := by
        rcases hmem with rfl | hm'
        · exact hb
        · exact hrest' m hm'
      refine ⟨m, ?_, ?_, hmb, ?_⟩
      · simp only [pyMaxAux, hkd, hgt, hcmp]
        simpa using hm
      · rcases hmem with rfl | h
        · exact Or.inl rfl
        · exact Or.inr (by simp [h])
      · intro x hx
        rcases List.mem_cons.mp hx with rfl | hx'
        · cases hx2 : dkLt (K m) (K x) with
          | false => rfl
          | true =>
            cases hdb : dkLt (K x) (K best) with
            | true => exact absurd (dkLt_trans hx2 hdb) (by simp [hmb])
            | false =>
              have heq : K best = K x :=
                dkLt_total hcmp hdb (hkind best x hb hd)
              rw [← heq] at hx2
              exact absurd hx2 (by simp [hmb])
        · exact hall x hx'

/-- `max(dates, key=...)` over a non-empty list of one-kind keys succeeds
and returns a maximal element. -/
theorem pyMaxDates_reaches_max (K : List Char → DKey) (P : List Char → Prop)
    (hK : ∀ d, P d → dateKey d = .ok (K d))
    (hkind : ∀ d d', P d → P d' → kindDt (K d) = kindDt (K d'))
    (ds : List (List Char)) (hne : ds ≠ []) (hall : ∀ d ∈ ds, P d) :
    ∃ m, pyMaxDates ds = .ok m ∧ m ∈ ds ∧
      ∀ d ∈ ds, dkLt (K m) (K d) = false := by
  cases ds with
  | nil => exact absurd rfl hne
  | cons d rest =>
    have hd : P d := hall d (by simp)
    have hrest : ∀ x ∈ rest, P x := fun x hx => hall x (by simp [hx])
    obtain ⟨m, hm, hmem, hmb, hallrest⟩ :=
      pyMaxAux_reaches_max K P hK hkind rest d hd hrest
    refine ⟨m, ?_, ?_, ?_⟩
    · rw [pyMaxDates, hK d hd]
      exact hm
    · rcases hmem with rfl | h
      · simp
      · simp [h]
    · intro x hx
      rcases List.mem_cons.mp hx with rfl | hx'
      · exact hmb
      · exact hallrest x hx'

/-- `resolveLatest`, specified for a uniform key kind: no block-level
annotation, a non-empty date list, keys all succeed with one kind — the
resolution succeeds with a maximal date. -/
theorem resolveLatest_reaches_max (pd : ParsedData) (K : List Char → DKey)
    (h0 : pd.latest_date = none) (hne : collectDates pd ≠ [])
    (hK : ∀ d ∈ collectDates pd, dateKey d = .ok (K d))
    (hkind : ∀ d ∈ collectDates pd, ∀ d' ∈ collectDates pd,
      kindDt (K d) = kindDt (K d')) :
    ∃ m ∈ collectDates pd, resolveLatest pd = .ok (some m) ∧
      ∀ d ∈ collectDates pd, dkLt (K m) (K d) = false := by
  obtain ⟨m, hm, hmem, hmax⟩ :=
    pyMaxDates_reaches_max K (fun d => d ∈ collectDates pd)
      (fun d hd => hK d hd)
      (fun d d' hd hd' => hkind d hd d' hd')
      (collectDates pd) hne (fun d hd => hd)
  have hie : (collectDates pd).isEmpty = false := by simpa using hne
  refine ⟨m, hmem, ?_, hmax⟩
  rw [resolveLatest, h0]
  simp [latestFallback, hie, hm, Except.map]

/-! ## Claims -/

/-- C2: a block whose text contains the phrase "not available" in any letter
case anywhere parses to zero records (no price entries, no range entries) and
no latest-date annotation, and the request surfaces as `Unavailable`, even if
other lines of the block are well-formed entries. -/
theorem C2_not_available_short_circuits (t : List Char) (grade : Option (List Char))
    (h : containsNotAvailable t = true) :
    parsePriceResponse t = emptyParsed ∧
    processParsed grade (parsePriceResponse t) = .unavailable := by
  have hp : parsePriceResponse t = emptyParsed := by
    simp [parsePriceResponse, h]
  refine ⟨hp, ?_⟩
  rw [hp]
  simp [processParsed, emptyParsed]

/-- C2 witness: a block with a well-formed entry line followed by
"Not available" yields the empty record set and `Unavailable`. -/
theorem C2_not_available_short_circuits_witness :
    containsNotAvailable "PRICE_PER_KG: 20 | SOURCE: X\nNot available".data = true ∧
    parsePriceResponse "PRICE_PER_KG: 20 | SOURCE: X\nNot available".data = emptyParsed ∧
    processParsed none
      (parsePriceResponse "PRICE_PER_KG: 20 | SOURCE: X\nNot available".data) = .unavailable := by
  have h := C2_not_available_short_circuits
    "PRICE_PER_KG: 20 | SOURCE: X\nNot available".data none (by decide)
  exact ⟨by decide, h.1, h.2⟩

/-- C3 counterexample: a parsed range whose extracted minimum (5) exceeds its
extracted maximum (2) enters and leaves aggregation with the bounds unswapped:
the estimate's central pair is (5, 2), not (2, 5). -/
theorem range_min_max_not_swapped :
    processParsed none
        (parsePriceResponse "MIN_PRICE_KG: 5 | MAX_PRICE_KG: 2 | SOURCE: X".data) =
      .ok ⟨some (.range 5 2), [⟨.range 5 2, "X".data, "N/A".data⟩], none⟩ ∧
    ¬ ((5 : ℚ) ≤ 2) := by
  constructor
  · simp [processParsed, parsePriceResponse, containsNotAvailable, lowerL, lowerChar, hasSub,
      startsWithL, splitOnChar, stripL, isWSChar, processEntry, entryDict, buildEntryData,
      splitFirst, lookupE, lookupD, emptyParsed, PRICE_PER_KG_key, MIN_PRICE_KG_key,
      MAX_PRICE_KG_key, SOURCE_key, DATE_key, addSource, buildPrices, buildRanges,
      extractNumeric, cleanNumeric, parseCleaned, digitsVal, applyGrade,
      QUALITY_PRICE_FACTORS_get, mean, resolveLatest, latestFallback, collectDates,
      pyMaxDates, pyMaxAux, parseDay,
      dateKey, parseYMD, monthLen, dkeyGt, tripleLt, lexLt, Except.map, Except.bind, bind]
  · norm_num

/-- C3 amended: the engine performs no correction at all on a range record:
whatever values the minimum and maximum fields extract to — including a
minimum exceeding the maximum — the record enters aggregation with exactly
the extracted pair, unswapped and unrejected. -/
theorem range_bounds_enter_as_extracted (e : Entry) (a b : ℚ)
    (ha : (lookupE MIN_PRICE_KG_key e).bind extractNumeric = some a)
    (hb : (lookupE MAX_PRICE_KG_key e).bind extractNumeric = some b) :
    buildRanges none [e] = [(a, b, e)] := by
  simp only [buildRanges, List.filterMap_cons, List.filterMap_nil, ha, hb,
    Option.some_bind', Option.map_some']
  simp [applyGrade]

/-- C3 amended witness: the record with extracted minimum 5 and maximum 2
enters aggregation as (5, 2). -/
theorem range_bounds_enter_as_extracted_witness :
    (lookupE MIN_PRICE_KG_key
        (entryDict "MIN_PRICE_KG: 5 | MAX_PRICE_KG: 2 | SOURCE: X".data)).bind extractNumeric
      = some 5 ∧
    (lookupE MAX_PRICE_KG_key
        (entryDict "MIN_PRICE_KG: 5 | MAX_PRICE_KG: 2 | SOURCE: X".data)).bind extractNumeric
      = some 2 ∧
    buildRanges none [entryDict "MIN_PRICE_KG: 5 | MAX_PRICE_KG: 2 | SOURCE: X".data] =
      [(5, 2, entryDict "MIN_PRICE_KG: 5 | MAX_PRICE_KG: 2 | SOURCE: X".data)] := by
  have ha : (lookupE MIN_PRICE_KG_key
      (entryDict "MIN_PRICE_KG: 5 | MAX_PRICE_KG: 2 | SOURCE: X".data)).bind extractNumeric
      = some 5 := by
    simp [entryDict, buildEntryData, splitOnChar, splitFirst, stripL, isWSChar, lookupE,
      MIN_PRICE_KG_key, extractNumeric, cleanNumeric, parseCleaned, digitsVal]
  have hb : (lookupE MAX_PRICE_KG_key
      (entryDict "MIN_PRICE_KG: 5 | MAX_PRICE_KG: 2 | SOURCE: X".data)).bind extractNumeric
      = some 2 := by
    simp [entryDict, buildEntryData, splitOnChar, splitFirst, stripL, isWSChar, lookupE,
      MAX_PRICE_KG_key, extractNumeric, cleanNumeric, parseCleaned, digitsVal]
  exact ⟨ha, hb, range_bounds_enter_as_extracted _ 5 2 ha hb⟩

/-- C5 counterexample: a line carrying the generalized key `PRICE_PER_UNIT`
with a numerically extractable value yields no record at all (the parse
result is entirely empty), while the same line with `PRICE_PER_KG` yields one
price record. -/
theorem price_per_unit_not_recognized :
    parsePriceResponse "PRICE_PER_UNIT: 25 | SOURCE: X | DATE: 2024-01-01".data = emptyParsed ∧
    (parsePriceResponse "PRICE_PER_KG: 25 | SOURCE: X | DATE: 2024-01-01".data).prices.length
      = 1 := by
  decide

/-- C5 amended: only the literal key `PRICE_PER_KG` classifies a line as a
single price.  A line carrying `PRICE_PER_UNIT` instead (and not both range
keys) is skipped silently: it contributes nothing to the parse state. -/
theorem price_per_unit_line_skipped (d : ParsedData) (entry : List Char)
    (h1 : startsWithL "LATEST_DATE:".data entry = false)
    (hu : (lookupE "PRICE_PER_UNIT".data (entryDict entry)).isSome = true)
    (h2 : lookupE PRICE_PER_KG_key (entryDict entry) = none)
    (h3 : (lookupE MIN_PRICE_KG_key (entryDict entry)).isSome = false ∨
          (lookupE MAX_PRICE_KG_key (entryDict entry)).isSome = false) :
    processEntry d entry = d := by
  rcases h3 with h3 | h3 <;> simp [processEntry, h1, h2, h3]

/-- C5 amended witness: the `PRICE_PER_UNIT` line is skipped. -/
theorem price_per_unit_line_skipped_witness :
    startsWithL "LATEST_DATE:".data "PRICE_PER_UNIT: 25 | SOURCE: X".data = false ∧
    (lookupE "PRICE_PER_UNIT".data (entryDict "PRICE_PER_UNIT: 25 | SOURCE: X".data)).isSome
      = true ∧
    processEntry emptyParsed "PRICE_PER_UNIT: 25 | SOURCE: X".data = emptyParsed := by
  exact ⟨by decide, by decide,
    price_per_unit_line_skipped emptyParsed _ (by decide) (by decide) (by decide)
      (Or.inl (by decide))⟩

/-- C6: the controller issues at most two queries, and when the initial
response signals unavailability while the broadened response parses to at
least one record, the text handed to the parser is exactly the broadened
response — nothing of the initial answer is merged in. -/
theorem fallback_at_most_two_queries (r1 r2 : List Char) (grade : Option (List Char)) :
    (fetchControl r1 r2).1 ≤ 2 ∧
    (containsNotAvailable r1 = true →
      ¬ ((parsePriceResponse r2).prices = [] ∧ (parsePriceResponse r2).ranges = []) →
      (fetchControl r1 r2).2 = r2 ∧
      fetchOutcome grade r1 r2 = processParsed grade (parsePriceResponse r2)) := by
  constructor
  · unfold fetchControl
    split <;> [skip; simp] <;> split <;> simp
  · intro h1 h2
    have hr2 : containsNotAvailable r2 = false := by
      by_contra hc
      have hc' : containsNotAvailable r2 = true := by
        revert hc
        cases containsNotAvailable r2 <;> simp
      exact h2 (by simp [parsePriceResponse, hc', emptyParsed])
    have hsel : (fetchControl r1 r2).2 = r2 := by
      simp [fetchControl, h1, hr2]
    exact ⟨hsel, by rw [fetchOutcome, hsel]⟩

/-- C6 witness: an unavailable initial response plus a broadened response
with one record: two queries, and the outcome is computed from the broadened
text alone. -/
theorem fallback_at_most_two_queries_witness :
    (fetchControl "Not available".data "PRICE_PER_KG: 20 | SOURCE: X".data).1 ≤ 2 ∧
    containsNotAvailable "Not available".data = true ∧
    ¬ ((parsePriceResponse "PRICE_PER_KG: 20 | SOURCE: X".data).prices = [] ∧
       (parsePriceResponse "PRICE_PER_KG: 20 | SOURCE: X".data).ranges = []) ∧
    (fetchControl "Not available".data "PRICE_PER_KG: 20 | SOURCE: X".data).2 =
      "PRICE_PER_KG: 20 | SOURCE: X".data ∧
    fetchOutcome none "Not available".data "PRICE_PER_KG: 20 | SOURCE: X".data =
      processParsed none (parsePriceResponse "PRICE_PER_KG: 20 | SOURCE: X".data) := by
  have h := fallback_at_most_two_queries "Not available".data
    "PRICE_PER_KG: 20 | SOURCE: X".data none
  have h2 := h.2 (by decide) (by decide)
  exact ⟨h.1, by decide, by decide, h2.1, h2.2⟩

/-- C10: an entry line carrying `PRICE_PER_KG` — even together with both
`MIN_PRICE_KG` and `MAX_PRICE_KG` — is classified solely as a single price:
exactly one record is appended to the price group and the range group is
untouched, so no line ever yields two records. -/
theorem price_key_wins_over_range_keys (d : ParsedData) (entry : List Char)
    (h1 : startsWithL "LATEST_DATE:".data entry = false)
    (h2 : (lookupE PRICE_PER_KG_key (entryDict entry)).isSome = true) :
    processEntry d entry =
      { d with prices := d.prices ++ [entryDict entry],
               sources := addSource d.sources
                 (lookupD SOURCE_key "Unknown".data (entryDict entry)) } := by
  simp [processEntry, h1, h2]

/-- C10 witness: a line with all three keys yields exactly one price record
and no range record. -/
theorem price_key_wins_over_range_keys_witness :
    startsWithL "LATEST_DATE:".data
      "PRICE_PER_KG: 5 | MIN_PRICE_KG: 1 | MAX_PRICE_KG: 9 | SOURCE: X".data = false ∧
    (lookupE PRICE_PER_KG_key
      (entryDict "PRICE_PER_KG: 5 | MIN_PRICE_KG: 1 | MAX_PRICE_KG: 9 | SOURCE: X".data)).isSome
      = true ∧
    processEntry emptyParsed
        "PRICE_PER_KG: 5 | MIN_PRICE_KG: 1 | MAX_PRICE_KG: 9 | SOURCE: X".data =
      { emptyParsed with
          prices := emptyParsed.prices ++
            [entryDict "PRICE_PER_KG: 5 | MIN_PRICE_KG: 1 | MAX_PRICE_KG: 9 | SOURCE: X".data],
          sources := addSource emptyParsed.sources
            (lookupD SOURCE_key "Unknown".data
              (entryDict
                "PRICE_PER_KG: 5 | MIN_PRICE_KG: 1 | MAX_PRICE_KG: 9 | SOURCE: X".data)) } := by
  exact ⟨by decide, by decide,
    price_key_wins_over_range_keys emptyParsed _ (by decide) (by decide)⟩

/-- C1 counterexample: with one record whose parsed value is 10 and a
Grade C assessment, the contributing source reports 8.5 = 10 × 0.85 — the
quality-adjusted value, not the pre-adjustment parsed value 10. -/
theorem contributing_source_not_pre_adjustment :
    processParsed (some "C".data)
        (parsePriceResponse "PRICE_PER_KG: 10 | SOURCE: X | DATE: 2024-01-01".data) =
      .ok ⟨some (.single (17/2)),
           [⟨.single (17/2), "X".data, "2024-01-01".data⟩],
           some "2024-01-01".data⟩ ∧
    (17/2 : ℚ) ≠ 10 := by
  constructor
  · simp [processParsed, parsePriceResponse, containsNotAvailable, lowerL, lowerChar, hasSub,
      startsWithL, splitOnChar, stripL, isWSChar, processEntry, entryDict, buildEntryData,
      splitFirst, lookupE, lookupD, emptyParsed, PRICE_PER_KG_key, MIN_PRICE_KG_key,
      MAX_PRICE_KG_key, SOURCE_key, DATE_key, addSource, buildPrices, buildRanges,
      extractNumeric, cleanNumeric, parseCleaned, digitsVal, applyGrade,
      QUALITY_PRICE_FACTORS_get, mean, resolveLatest, latestFallback, collectDates,
      pyMaxDates, pyMaxAux, parseDay,
      dateKey, parseYMD, monthLen, dkeyGt, tripleLt, lexLt, Except.map, Except.bind, bind]
    norm_num
  · norm_num

/-- C1 amended: every contributing source reports its quality-adjusted value
(the parsed value multiplied by the grade's factor — the same adjustment the
aggregate receives), in input order, up to 3 entries; the aggregate central
value is the mean of those adjusted values. -/
theorem contributing_sources_report_adjusted_values (grade : Option (List Char))
    (pd : ParsedData) (l : Option (List Char))
    (hp : pd.prices ≠ []) (hl : resolveLatest pd = .ok l) :
    processParsed grade pd = .ok
      ⟨if (buildPrices none pd.prices).isEmpty then none
        else some (.single
          (mean ((buildPrices none pd.prices).map fun pe => effFactor grade * pe.1))),
       ((buildPrices none pd.prices).take 3).map (fun pe =>
         ⟨.single (effFactor grade * pe.1), lookupD SOURCE_key "Unknown".data pe.2,
           lookupD DATE_key "N/A".data pe.2⟩),
       l⟩ :=
  processParsed_prices_spec grade pd l hp hl

/-- C1 amended witness: two records with grade A. -/
theorem contributing_sources_report_adjusted_values_witness :
    (parsePriceResponse
      "PRICE_PER_KG: 20 | SOURCE: S1 | DATE: 2024-03-01\nPRICE_PER_KG: 30 | SOURCE: S2 | DATE: 2024-05-10".data).prices
      ≠ [] ∧
    resolveLatest (parsePriceResponse
      "PRICE_PER_KG: 20 | SOURCE: S1 | DATE: 2024-03-01\nPRICE_PER_KG: 30 | SOURCE: S2 | DATE: 2024-05-10".data)
      = .ok (some "2024-05-10".data) ∧
    processParsed (some "A".data) (parsePriceResponse
      "PRICE_PER_KG: 20 | SOURCE: S1 | DATE: 2024-03-01\nPRICE_PER_KG: 30 | SOURCE: S2 | DATE: 2024-05-10".data)
      = .ok
      ⟨if (buildPrices none (parsePriceResponse
          "PRICE_PER_KG: 20 | SOURCE: S1 | DATE: 2024-03-01\nPRICE_PER_KG: 30 | SOURCE: S2 | DATE: 2024-05-10".data).prices).isEmpty
          then none
        else some (.single
          (mean ((buildPrices none (parsePriceResponse
            "PRICE_PER_KG: 20 | SOURCE: S1 | DATE: 2024-03-01\nPRICE_PER_KG: 30 | SOURCE: S2 | DATE: 2024-05-10".data).prices).map
              fun pe => effFactor (some "A".data) * pe.1))),
       ((buildPrices none (parsePriceResponse
          "PRICE_PER_KG: 20 | SOURCE: S1 | DATE: 2024-03-01\nPRICE_PER_KG: 30 | SOURCE: S2 | DATE: 2024-05-10".data).prices).take 3).map
         (fun pe =>
           ⟨.single (effFactor (some "A".data) * pe.1),
             lookupD SOURCE_key "Unknown".data pe.2,
             lookupD DATE_key "N/A".data pe.2⟩),
       some "2024-05-10".data⟩ := by
  refine ⟨by decide, by decide, ?_⟩
  exact contributing_sources_report_adjusted_values (some "A".data) _ _
    (by decide) (by decide)

/-- C7: numeric extraction keeps only digits and decimal points in order, so
(i) a token wrapping one well-formed decimal in non-numeric junk always
extracts; (ii) a token whose cleaned string is empty or has more than one
decimal point extracts to `none` (the `ValueError` case), never an escaping
exception; and (iii) such a failure drops exactly that one entry from the
aggregated price list, leaving every other entry in place. -/
theorem numeric_extraction_behavior :
    (∀ pre mid post : List Char,
      (∀ c ∈ pre, (c.isDigit || c = '.') = false) →
      (∀ c ∈ post, (c.isDigit || c = '.') = false) →
      (∀ c ∈ mid, (c.isDigit || c = '.') = true) →
      mid.any Char.isDigit = true →
      (mid.filter (fun c => c = '.')).length ≤ 1 →
      (extractNumeric (pre ++ mid ++ post)).isSome = true) ∧
    (∀ tok : List Char,
      cleanNumeric tok = [] ∨ 1 < ((cleanNumeric tok).filter (fun c => c = '.')).length →
      extractNumeric tok = none) ∧
    (∀ (grade : Option (List Char)) (es₁ es₂ : List Entry) (e : Entry),
      (lookupE PRICE_PER_KG_key e).bind extractNumeric = none →
      buildPrices grade (es₁ ++ e :: es₂) = buildPrices grade (es₁ ++ es₂)) := by
  refine ⟨?_, ?_, ?_⟩
  · intro pre mid post hpre hpost hmid hdig hdot
    have hc : cleanNumeric (pre ++ mid ++ post) = mid := by
      rw [cleanNumeric, List.filter_append, List.filter_append]
      rw [List.filter_eq_nil_iff.mpr (by simpa using hpre),
        List.filter_eq_self.mpr hmid,
        List.filter_eq_nil_iff.mpr (by simpa using hpost)]
      simp
    rw [extractNumeric, hc, parseCleaned]
    rw [if_pos (by simp [hdig, hdot])]
    cases splitFirst '.' mid <;> simp
  · intro tok htok
    rcases htok with h | h
    · simp [extractNumeric, h, parseCleaned]
    · have hd : decide (((cleanNumeric tok).filter (fun c => c = '.')).length ≤ 1)
        = false := decide_eq_false (by omega)
      simp [extractNumeric, parseCleaned, hd]
  · intro grade es₁ es₂ e h
    simp only [buildPrices, List.filterMap_append, List.filterMap_cons, h,
      Option.map_none']

/-- C7 witness: "Rs 23.50 per kg" extracts; "1.2.3" fails locally; a failing
entry is dropped from the price list without affecting anything else. -/
theorem numeric_extraction_behavior_witness :
    (extractNumeric ("Rs ".data ++ "23.50".data ++ " per kg".data)).isSome = true ∧
    extractNumeric "1.2.3".data = none ∧
    buildPrices none ([] ++ entryDict "PRICE_PER_KG: N/A | SOURCE: X".data :: []) =
      buildPrices none ([] ++ []) := by
  refine ⟨?_, ?_, ?_⟩
  · exact numeric_extraction_behavior.1 "Rs ".data "23.50".data " per kg".data
      (by decide) (by decide) (by decide) (by decide) (by decide)
  · exact numeric_extraction_behavior.2.1 "1.2.3".data (Or.inr (by decide))
  · exact numeric_extraction_behavior.2.2 none [] []
      (entryDict "PRICE_PER_KG: N/A | SOURCE: X".data) (by decide)

/-- C8: the grade factors are A ↦ 1.15, B ↦ 1.0, C ↦ 0.85, with 1.0 for an
absent or unrecognized grade; a non-empty single-price group yields central
value = factor × mean of the per-unit amounts (the single-price group is
used whenever it is non-empty, regardless of ranges); a range group used
only when no single price parsed yields the pair
(factor × mean of minima, factor × mean of maxima). -/
theorem aggregator_mean_and_grade_factor (grade : Option (List Char))
    (pd : ParsedData) (l : Option (List Char)) (hl : resolveLatest pd = .ok l) :
    (effFactor (some "A".data) = 23/20 ∧ effFactor (some "B".data) = 1 ∧
     effFactor (some "C".data) = 17/20 ∧ effFactor none = 1 ∧
     (∀ g : List Char, g ≠ "A".data → g ≠ "B".data → g ≠ "C".data →
       effFactor (some g) = 1)) ∧
    (pd.prices ≠ [] → buildPrices none pd.prices ≠ [] →
      centralOf (processParsed grade pd) =
        some (.single (effFactor grade *
          mean ((buildPrices none pd.prices).map Prod.fst)))) ∧
    (pd.prices = [] → buildRanges none pd.ranges ≠ [] →
      centralOf (processParsed grade pd) =
        some (.range
          (effFactor grade * mean ((buildRanges none pd.ranges).map Prod.fst))
          (effFactor grade * mean ((buildRanges none pd.ranges).map fun r => r.2.1)))) := by
  refine ⟨⟨?_, ?_, ?_, ?_, ?_⟩, ?_, ?_⟩
  · simp +decide [effFactor, applyGrade, QUALITY_PRICE_FACTORS_get]
  · simp +decide [effFactor, applyGrade, QUALITY_PRICE_FACTORS_get]
  · simp +decide [effFactor, applyGrade, QUALITY_PRICE_FACTORS_get]
  · simp [effFactor, applyGrade]
  · intro g hA hB hC
    by_cases hg : g.isEmpty <;>
      simp [effFactor, applyGrade, QUALITY_PRICE_FACTORS_get, hg, hA, hB, hC]
  · intro hp hbp
    have h1 : (buildPrices none pd.prices).isEmpty = false := by simpa using hbp
    have h2 : (buildPrices none pd.prices).map (fun pe => effFactor grade * pe.1) =
        ((buildPrices none pd.prices).map Prod.fst).map (fun x => effFactor grade * x) := by
      simp [List.map_map, Function.comp_def]
    rw [processParsed_prices_spec grade pd l hp hl]
    simp only [centralOf, h1, Bool.false_eq_true, if_false]
    rw [h2, mean_map_const_mul]
  · intro hp hbr
    have hr : pd.ranges ≠ [] := by
      intro h0
      rw [h0] at hbr
      simp [buildRanges] at hbr
    have h1 : (buildRanges none pd.ranges).isEmpty = false := by simpa using hbr
    have h2 : (buildRanges none pd.ranges).map (fun r => effFactor grade * r.1) =
        ((buildRanges none pd.ranges).map Prod.fst).map (fun x => effFactor grade * x) := by
      simp [List.map_map, Function.comp_def]
    have h3 : (buildRanges none pd.ranges).map (fun r => effFactor grade * r.2.1) =
        ((buildRanges none pd.ranges).map (fun r => r.2.1)).map
          (fun x => effFactor grade * x) := by
      simp [List.map_map, Function.comp_def]
    rw [processParsed_ranges_spec grade pd l hp hr hl]
    simp only [centralOf, h1, Bool.false_eq_true, if_false]
    rw [h2, h3, mean_map_const_mul, mean_map_const_mul]

/-- C8 witness: two single-price records with grade C. -/
theorem aggregator_mean_and_grade_factor_witness :
    resolveLatest (parsePriceResponse
      "PRICE_PER_KG: 20 | SOURCE: S1 | DATE: 2024-03-01\nPRICE_PER_KG: 30 | SOURCE: S2 | DATE: 2024-05-10".data)
      = .ok (some "2024-05-10".data) ∧
    (parsePriceResponse
      "PRICE_PER_KG: 20 | SOURCE: S1 | DATE: 2024-03-01\nPRICE_PER_KG: 30 | SOURCE: S2 | DATE: 2024-05-10".data).prices
      ≠ [] ∧
    buildPrices none (parsePriceResponse
      "PRICE_PER_KG: 20 | SOURCE: S1 | DATE: 2024-03-01\nPRICE_PER_KG: 30 | SOURCE: S2 | DATE: 2024-05-10".data).prices
      ≠ [] ∧
    effFactor (some "D".data) = 1 ∧
    centralOf (processParsed (some "C".data) (parsePriceResponse
      "PRICE_PER_KG: 20 | SOURCE: S1 | DATE: 2024-03-01\nPRICE_PER_KG: 30 | SOURCE: S2 | DATE: 2024-05-10".data))
      = some (.single (effFactor (some "C".data) *
          mean ((buildPrices none (parsePriceResponse
            "PRICE_PER_KG: 20 | SOURCE: S1 | DATE: 2024-03-01\nPRICE_PER_KG: 30 | SOURCE: S2 | DATE: 2024-05-10".data).prices).map
            Prod.fst))) := by
  have h := aggregator_mean_and_grade_factor (some "C".data)
    (parsePriceResponse
      "PRICE_PER_KG: 20 | SOURCE: S1 | DATE: 2024-03-01\nPRICE_PER_KG: 30 | SOURCE: S2 | DATE: 2024-05-10".data)
    (some "2024-05-10".data) (by decide)
  exact ⟨by decide, by decide, by decide,
    h.1.2.2.2.2 "D".data (by decide) (by decide) (by decide),
    h.2.1 (by decide) (by decide)⟩

/-- C9 counterexample: in the production-cost variant, a single record
parsed as 20 INR/kg produces the fetch result 2000 = 20 × 100: the lot-size
multiplication is applied to the aggregate after the group mean, inside the
aggregation code. -/
theorem pc_lot_conversion_applied_after_mean :
    pcFetchFromParsed (parsePriceResponse "PRICE_PER_KG: 20 | SOURCE: X".data) = 2000 ∧
    (2000 : ℚ) = 20 * 100 ∧ (2000 : ℚ) ≠ 20 := by
  refine ⟨?_, by norm_num, by norm_num⟩
  simp [pcFetchFromParsed, parsePriceResponse, containsNotAvailable, lowerL, lowerChar,
    hasSub, startsWithL, splitOnChar, stripL, isWSChar, processEntry, entryDict,
    buildEntryData, splitFirst, lookupE, lookupD, emptyParsed, PRICE_PER_KG_key,
    MIN_PRICE_KG_key, MAX_PRICE_KG_key, SOURCE_key, DATE_key, addSource, extractNumeric,
    cleanNumeric, parseCleaned, digitsVal, mean]
  norm_num

/-- C9 amended: the production-cost `fetch_price` multiplies the mean of the
extracted per-kg prices by the lot size 100 after aggregation, converting
the aggregate back to a per-lot (quintal) price; no per-record lot division
appears in the code (ingestion-time division is delegated to the external
text source by the prompt). -/
theorem pc_aggregate_scales_mean_by_lot_size (pd : ParsedData)
    (hp : pd.prices ≠ [])
    (hs : pd.prices.filterMap
      (fun e => (lookupE PRICE_PER_KG_key e).bind extractNumeric) ≠ []) :
    pcFetchFromParsed pd =
      mean (pd.prices.filterMap
        (fun e => (lookupE PRICE_PER_KG_key e).bind extractNumeric)) * 100 := by
  have hpe : pd.prices.isEmpty = false := by simpa using hp
  have hse : (pd.prices.filterMap
      (fun e => (lookupE PRICE_PER_KG_key e).bind extractNumeric)).isEmpty = false := by
    simpa using hs
  rw [pcFetchFromParsed]
  simp [hpe, hse]

/-- C9 amended witness: two records, 20 and 30 INR/kg. -/
theorem pc_aggregate_scales_mean_by_lot_size_witness :
    (parsePriceResponse
      "PRICE_PER_KG: 20 | SOURCE: S1\nPRICE_PER_KG: 30 | SOURCE: S2".data).prices ≠ [] ∧
    (parsePriceResponse
      "PRICE_PER_KG: 20 | SOURCE: S1\nPRICE_PER_KG: 30 | SOURCE: S2".data).prices.filterMap
        (fun e => (lookupE PRICE_PER_KG_key e).bind extractNumeric) ≠ [] ∧
    pcFetchFromParsed (parsePriceResponse
      "PRICE_PER_KG: 20 | SOURCE: S1\nPRICE_PER_KG: 30 | SOURCE: S2".data) =
      mean ((parsePriceResponse
        "PRICE_PER_KG: 20 | SOURCE: S1\nPRICE_PER_KG: 30 | SOURCE: S2".data).prices.filterMap
          (fun e => (lookupE PRICE_PER_KG_key e).bind extractNumeric)) * 100 := by
  exact ⟨by decide, by decide,
    pc_aggregate_scales_mean_by_lot_size _ (by decide) (by decide)⟩

/-- C4 counterexample: with record dates "2024-03-01" (dash format) and
"20240510" (no dash) and no block-level annotation, latest-date resolution
raises a `TypeError` (comparing a `datetime` key with a `str` key) instead
of succeeding with the maximum of the parseable dates, and the whole fetch
surfaces the error path. -/
theorem latest_date_mixed_formats_raise :
    resolveLatest (parsePriceResponse
      "PRICE_PER_KG: 10 | DATE: 2024-03-01\nPRICE_PER_KG: 12 | DATE: 20240510".data)
      = .error () ∧
    processParsed none (parsePriceResponse
      "PRICE_PER_KG: 10 | DATE: 2024-03-01\nPRICE_PER_KG: 12 | DATE: 20240510".data)
      = .err := by
  constructor <;> decide

/-- C4 amended: latest-date resolution succeeds in the two uniform cases --
every record date parses as `%Y-%m-%d` (maximum by calendar order), or no
record date contains a dash (maximum by lexicographic string order) --
returning a collected date that no other collected date's key strictly
exceeds; a dash-containing date failing `%Y-%m-%d`, or a mix of dash and
dash-free dates, instead raises an exception surfaced as an error result. -/
theorem latest_date_resolution_uniform (pd : ParsedData)
    (h0 : pd.latest_date = none)
    (hne : collectDates pd ≠ [])
    (hcase : (∀ d ∈ collectDates pd, (parseYMD d).isSome = true) ∨
             (∀ d ∈ collectDates pd, hasSub ['-'] d = false)) :
    ∃ m ∈ collectDates pd, resolveLatest pd = .ok (some m) ∧
      ∀ d ∈ collectDates pd, ∃ km kd, dateKey m = .ok km ∧ dateKey d = .ok kd ∧
        dkLt km kd = false := by
  rcases hcase with hA | hB
  · have hK : ∀ d ∈ collectDates pd, dateKey d = .ok (ymdKey d) := by
      intro d hd
      obtain ⟨t, ht⟩ := Option.isSome_iff_exists.mp (hA d hd)
      simp [dateKey, parseYMD_isSome_dash (hA d hd), ht, ymdKey]
    have hkind : ∀ d ∈ collectDates pd, ∀ d' ∈ collectDates pd,
        kindDt (ymdKey d) = kindDt (ymdKey d') := by
      intro d hd d' hd'
      obtain ⟨t, ht⟩ := Option.isSome_iff_exists.mp (hA d hd)
      obtain ⟨t', ht'⟩ := Option.isSome_iff_exists.mp (hA d' hd')
      simp [ymdKey, ht, ht', kindDt]
    obtain ⟨m, hmem, hres, hmax⟩ := resolveLatest_reaches_max pd ymdKey h0 hne hK hkind
    exact ⟨m, hmem, hres, fun d hd =>
      ⟨ymdKey m, ymdKey d, hK m hmem, hK d hd, hmax d hd⟩⟩
  · have hK : ∀ d ∈ collectDates pd, dateKey d = .ok (DKey.str d) := by
      intro d hd
      simp [dateKey, hB d hd]
    have hkind : ∀ d ∈ collectDates pd, ∀ d' ∈ collectDates pd,
        kindDt (DKey.str d) = kindDt (DKey.str d') := by
      intro d _ d' _
      rfl
    obtain ⟨m, hmem, hres, hmax⟩ :=
      resolveLatest_reaches_max pd DKey.str h0 hne hK hkind
    exact ⟨m, hmem, hres, fun d hd =>
      ⟨DKey.str m, DKey.str d, hK m hmem, hK d hd, hmax d hd⟩⟩

/-- C4 amended witness: dates "2024-03-01" and "2024-05-10" (both parse as
calendar dates) resolve successfully to a maximal collected date. -/
theorem latest_date_resolution_uniform_witness :
    (parsePriceResponse
      "PRICE_PER_KG: 10 | DATE: 2024-03-01\nPRICE_PER_KG: 12 | DATE: 2024-05-10".data).latest_date
      = none ∧
    collectDates (parsePriceResponse
      "PRICE_PER_KG: 10 | DATE: 2024-03-01\nPRICE_PER_KG: 12 | DATE: 2024-05-10".data)
      ≠ [] ∧
    (∀ d ∈ collectDates (parsePriceResponse
      "PRICE_PER_KG: 10 | DATE: 2024-03-01\nPRICE_PER_KG: 12 | DATE: 2024-05-10".data),
      (parseYMD d).isSome = true) ∧
    (∃ m ∈ collectDates (parsePriceResponse
      "PRICE_PER_KG: 10 | DATE: 2024-03-01\nPRICE_PER_KG: 12 | DATE: 2024-05-10".data),
      resolveLatest (parsePriceResponse
        "PRICE_PER_KG: 10 | DATE: 2024-03-01\nPRICE_PER_KG: 12 | DATE: 2024-05-10".data)
        = .ok (some m) ∧
      ∀ d ∈ collectDates (parsePriceResponse
        "PRICE_PER_KG: 10 | DATE: 2024-03-01\nPRICE_PER_KG: 12 | DATE: 2024-05-10".data),
        ∃ km kd, dateKey m = .ok km ∧ dateKey d = .ok kd ∧ dkLt km kd = false) := by
  exact ⟨by decide, by decide, by decide,
    latest_date_resolution_uniform _ (by decide) (by decide) (Or.inl (by decide))⟩

end AgriVerse
